import Mathlib

/-!
Shallow embedding of the Profit Pilot partner-settlement ledger engine:
the balance computation `partnerBalances`, the validation handlers for
adding sales, partners and settlements, and the partner-deletion cascade,
together with proofs of the specified properties.

Monetary amounts and percentages are modelled as exact rationals (the spec
notes arithmetic should use a precision-safe representation); the
`parseFloat` boundary is modelled by `JSNum`, which also carries the three
non-finite IEEE values so that validation behaviour on `NaN` and the
infinities can be stated faithfully.
-/

namespace ProfitPilot

/-- JavaScript number as produced by `parseFloat`: an exact finite value or
one of `NaN`, `Infinity`, `-Infinity`. -/
inductive JSNum where
  | nan : JSNum
  | negInf : JSNum
  | posInf : JSNum
  | fin : ℚ → JSNum
deriving DecidableEq

/-- JavaScript `isNaN`. -/
def jsIsNaN : JSNum → Bool
  | .nan => true
  | _ => false

/-- JavaScript `<=` comparison: every comparison with `NaN` is false. -/
def jsLe : JSNum → JSNum → Bool
  | .nan, _ => false
  | _, .nan => false
  | .negInf, _ => true
  | _, .posInf => true
  | .posInf, _ => false
  | .fin _, .negInf => false
  | .fin a, .fin b => decide (a ≤ b)

/-- JavaScript `<` comparison: every comparison with `NaN` is false. -/
def jsLt : JSNum → JSNum → Bool
  | .nan, _ => false
  | _, .nan => false
  | .negInf, .negInf => false
  | .negInf, _ => true
  | _, .negInf => false
  | .posInf, _ => false
  | .fin _, .posInf => true
  | .fin a, .fin b => decide (a < b)

/-- JavaScript addition on numbers. -/
def jsAdd : JSNum → JSNum → JSNum
  | .nan, _ => .nan
  | _, .nan => .nan
  | .posInf, .negInf => .nan
  | .negInf, .posInf => .nan
  | .posInf, _ => .posInf
  | _, .posInf => .posInf
  | .negInf, _ => .negInf
  | _, .negInf => .negInf
  | .fin a, .fin b => .fin (a + b)

/-- JavaScript subtraction on numbers. -/
def jsSub : JSNum → JSNum → JSNum
  | .nan, _ => .nan
  | _, .nan => .nan
  | .posInf, .posInf => .nan
  | .posInf, _ => .posInf
  | .negInf, .negInf => .nan
  | .negInf, _ => .negInf
  | .fin _, .posInf => .negInf
  | .fin _, .negInf => .posInf
  | .fin a, .fin b => .fin (a - b)

/-- A revenue-share participant (`types.ts`). -/
structure Partner where
  id : String
  name : String
  percentage : ℚ
deriving DecidableEq

/-- A resale record (`types.ts`). -/
structure Sale where
  id : String
  name : String
  description : Option String
  purchasePrice : ℚ
  soldPrice : ℚ
  profit : ℚ
  timestamp : ℚ
  partnerIds : List String
deriving DecidableEq

/-- A payment made to a partner (`types.ts`). -/
structure Settlement where
  id : String
  partnerId : String
  amount : ℚ
  timestamp : ℚ
deriving DecidableEq

/-- The three per-owner collections held by the app / the store. -/
structure LedgerState where
  sales : List Sale
  partners : List Partner
  settlements : List Settlement
deriving DecidableEq

/-- A JavaScript `Map<string, number>` as used by `partnerBalances`:
an insertion-ordered association list. -/
abbrev BalanceMap := List (String × ℚ)

/-- `Map.prototype.set`: overwrite in place if the key is present,
otherwise append at the end. -/
def mapSet (m : BalanceMap) (k : String) (v : ℚ) : BalanceMap :=
  if m.any (fun kv => kv.1 == k) then
    m.map (fun kv => if kv.1 == k then (k, v) else kv)
  else m ++ [(k, v)]

/-- `Map.prototype.get`: `some` the stored value, `none` for `undefined`. -/
def mapGet (m : BalanceMap) (k : String) : Option ℚ :=
  (m.find? (fun kv => kv.1 == k)).map (fun kv => kv.2)

/-- The JavaScript emptiness test `!name.trim()` used by the form handlers:
the trimmed string is empty exactly when every character is whitespace. -/
def isBlank (s : String) : Bool :=
  s.toList.all (fun c => c.isWhitespace)

/-- `partners.reduce((sum, p) => sum + p.percentage, 0)`
(`PartnerManagement`, `totalPercentage`). -/
def totalPercentage (partners : List Partner) : ℚ :=
  partners.foldl (fun sum p => sum + p.percentage) 0

/-- First pass of `partnerBalances`: `partners.forEach(p => balances.set(p.id, 0))`. -/
def initBalances (partners : List Partner) : BalanceMap :=
  partners.foldl (fun m p => mapSet m p.id 0) []

/-- One step of the second pass of `partnerBalances`: for a sale, every
partner of the partner set referenced by the sale's `partnerIds` gets
`(sale.profit * partner.percentage) / 100` added to its accumulator. -/
def creditSale (partners : List Partner) (m : BalanceMap) (sale : Sale) : BalanceMap :=
  let assignedPartners := partners.filter (fun p => sale.partnerIds.contains p.id)
  if 0 < assignedPartners.length then
    assignedPartners.foldl (fun m' partner =>
      mapSet m' partner.id
        ((mapGet m' partner.id).getD 0 + (sale.profit * partner.percentage) / 100)) m
  else m

/-- One step of the third pass of `partnerBalances`: subtract the
settlement's amount from the accumulator of its `partnerId`. -/
def debitSettlement (m : BalanceMap) (t : Settlement) : BalanceMap :=
  mapSet m t.partnerId ((mapGet m t.partnerId).getD 0 - t.amount)

/-- `partnerBalances` from `PartnerManagement`: initialize every partner to 0,
credit every sale's profit shares, then debit every settlement. -/
def partnerBalances (partners : List Partner) (sales : List Sale)
    (settlements : List Settlement) : BalanceMap :=
  settlements.foldl debitSettlement
    (sales.foldl (creditSale partners) (initBalances partners))

/-- Outcome of the add-partner form validation (`PartnerManagement.handleSubmit`).
`allocationExceeded` carries the current total that the error message reports. -/
inductive PartnerValidation where
  | invalidName : PartnerValidation
  | invalidPercentage : PartnerValidation
  | allocationExceeded : ℚ → PartnerValidation
  | ok : ℚ → PartnerValidation
deriving DecidableEq

/-- `PartnerManagement.handleSubmit`: reject empty name, then a percentage
that is `NaN`, `≤ 0` or `> 100`, then one that would push the total over
100; otherwise commit the parsed percentage. -/
def handleSubmitPartner (partners : List Partner) (name : String) (perc : JSNum) :
    PartnerValidation :=
  if isBlank name then .invalidName
  else if jsIsNaN perc || jsLe perc (.fin 0) || jsLt (.fin 100) perc then .invalidPercentage
  else if jsLt (.fin 100) (jsAdd (.fin (totalPercentage partners)) perc) then
    .allocationExceeded (totalPercentage partners)
  else
    match perc with
    | .fin q => .ok q
    | _ => .invalidPercentage

/-- `App.handleAddPartner`: append the new partner with a fresh id. -/
def addPartner (partners : List Partner) (id name : String) (percentage : ℚ) :
    List Partner :=
  partners ++ [{ id := id, name := name, percentage := percentage }]

/-- Outcome of the add-sale form validation (`AddSaleForm.handleSubmit`). -/
inductive SaleValidation where
  | invalidName : SaleValidation
  | invalidPrice : SaleValidation
  | invalidMargin : SaleValidation
  | ok : JSNum → JSNum → SaleValidation
deriving DecidableEq

/-- `AddSaleForm.handleSubmit`: reject empty name, then a price that is
`NaN` or negative, then a sold price below the purchase price; otherwise
pass the parsed prices on to `onAddSale`. -/
def handleSubmitSale (name : String) (pPrice sPrice : JSNum) : SaleValidation :=
  if isBlank name then .invalidName
  else if jsIsNaN pPrice || jsIsNaN sPrice || jsLt pPrice (.fin 0) || jsLt sPrice (.fin 0) then
    .invalidPrice
  else if jsLt sPrice pPrice then .invalidMargin
  else .ok pPrice sPrice

/-- `App.handleAddSale` / `api.addSale`: prepend the new sale, with
`profit := soldPrice - purchasePrice`. -/
def addSale (sales : List Sale) (id name : String) (description : Option String)
    (purchasePrice soldPrice : ℚ) (timestamp : ℚ) (partnerIds : List String) :
    List Sale :=
  { id := id, name := name, description := description,
    purchasePrice := purchasePrice, soldPrice := soldPrice,
    profit := soldPrice - purchasePrice, timestamp := timestamp,
    partnerIds := partnerIds } :: sales

/-- Outcome of the settle-modal validation (`PartnerManagement.handleSettle`).
`exceedsOwed` carries the owed amount that the error message reports. -/
inductive SettleOutcome where
  | invalidAmount : SettleOutcome
  | exceedsOwed : ℚ → SettleOutcome
  | accepted : JSNum → SettleOutcome
deriving DecidableEq

/-- `PartnerManagement.handleSettle`: the owed amount is the partner's entry
of `partnerBalances` (0 when absent); reject a `NaN` or non-positive amount,
then an amount above the owed balance; otherwise the settlement is accepted. -/
def handleSettle (partners : List Partner) (sales : List Sale)
    (settlements : List Settlement) (settlementPartner : Partner) (amount : JSNum) :
    SettleOutcome :=
  let owed := (mapGet (partnerBalances partners sales settlements) settlementPartner.id).getD 0
  if jsIsNaN amount || jsLe amount (.fin 0) then .invalidAmount
  else if jsLt (.fin owed) amount then .exceedsOwed owed
  else .accepted amount

/-- `App.handleAddSettlement`: append the new settlement with fresh id and
timestamp. -/
def addSettlement (settlements : List Settlement) (partnerId : String) (amount : ℚ)
    (id : String) (timestamp : ℚ) : List Settlement :=
  settlements ++ [{ id := id, partnerId := partnerId, amount := amount,
                    timestamp := timestamp }]

/-- `App.handleDeletePartner` / `api.deletePartner`: drop the partner, drop
its settlements, and strip its id from every sale that references it,
returning other sales untouched. -/
def deletePartner (st : LedgerState) (id : String) : LedgerState :=
  { partners := st.partners.filter (fun p => p.id != id)
    settlements := st.settlements.filter (fun s => s.partnerId != id)
    sales := st.sales.map (fun sale =>
      if sale.partnerIds.contains id then
        { sale with partnerIds := sale.partnerIds.filter (fun pid => pid != id) }
      else sale) }

/-- Partner collections reachable from the empty ledger by the add-partner
operation (committed only when `handleSubmitPartner` validates) and the
delete-partner operation. -/
inductive ReachablePartners : List Partner → Prop where
  | empty : ReachablePartners []
  | add (partners : List Partner) (name : String) (perc : JSNum) (q : ℚ) (id : String) :
      ReachablePartners partners →
      handleSubmitPartner partners name perc = .ok q →
      ReachablePartners (addPartner partners id name q)
  | delete (partners : List Partner) (d : String) :
      ReachablePartners partners →
      ReachablePartners (partners.filter (fun p => p.id != d))

/-- The spec's per-sale share of a partner: `sale.profit * partner.percentage / 100`. -/
def partnerCut (sale : Sale) (p : Partner) : ℚ :=
  (sale.profit * p.percentage) / 100

/-- The spec's first sum: total share of partner `p` over the sales that
reference `p.id`. -/
def salesShare (sales : List Sale) (p : Partner) : ℚ :=
  ((sales.filter (fun s => s.partnerIds.contains p.id)).map (fun s => partnerCut s p)).sum

/-- The spec's second sum: total settled amount recorded for a partner id. -/
def settledAmount (settlements : List Settlement) (pid : String) : ℚ :=
  ((settlements.filter (fun t => t.partnerId == pid)).map Settlement.amount).sum

/-! ### Lemmas about the `Map` model -/

theorem find?_map_update (m : BalanceMap) (k : String) (v : ℚ)
    (h : m.any (fun kv => kv.1 == k) = true) :
    (m.map (fun kv => if kv.1 == k then (k, v) else kv)).find? (fun kv => kv.1 == k)
      = some (k, v) := by
  induction m with
  | nil => simp at h
  | cons kv t ih =>
    simp only [List.any_cons, Bool.or_eq_true] at h
    rw [List.map_cons]
    by_cases hkv : (kv.1 == k) = true
    · rw [if_pos hkv, List.find?_cons_of_pos _ (by simp)]
    · rw [if_neg hkv, List.find?_cons_of_neg _ (by simpa using hkv)]
      exact ih (h.resolve_left hkv)

theorem find?_map_update_ne (m : BalanceMap) (k k' : String) (v : ℚ) (h : k' ≠ k) :
    (m.map (fun kv => if kv.1 == k then (k, v) else kv)).find? (fun kv => kv.1 == k')
      = m.find? (fun kv => kv.1 == k') := by
  induction m with
  | nil => rfl
  | cons kv t ih =>
    rw [List.map_cons]
    by_cases hkv : (kv.1 == k) = true
    · have hk : kv.1 = k := by simpa using hkv
      rw [if_pos hkv, List.find?_cons_of_neg _ (by simpa using Ne.symm h),
        List.find?_cons_of_neg _ (by simp only [hk]; simpa using Ne.symm h)]
      exact ih
    · rw [if_neg hkv]
      by_cases hkv' : (kv.1 == k') = true
      · simp only [List.find?_cons, hkv']
      · have hf : (kv.1 == k') = false := by simpa using hkv'
        simp only [List.find?_cons, hf]
        exact ih

theorem mapGet_mapSet_self (m : BalanceMap) (k : String) (v : ℚ) :
    mapGet (mapSet m k v) k = some v := by
  unfold mapGet mapSet
  by_cases h : m.any (fun kv => kv.1 == k) = true
  · rw [if_pos h, find?_map_update m k v h]
    rfl
  · rw [if_neg h]
    have h1 : m.find? (fun kv => kv.1 == k) = none := by
      rw [List.find?_eq_none]
      intro kv hkv hbeq
      exact h (List.any_eq_true.mpr ⟨kv, hkv, hbeq⟩)
    rw [List.find?_append, h1, Option.none_or, List.find?_cons_of_pos _ (by simp)]
    rfl

theorem mapGet_mapSet_ne (m : BalanceMap) (k k' : String) (v : ℚ) (h : k' ≠ k) :
    mapGet (mapSet m k v) k' = mapGet m k' := by
  unfold mapGet mapSet
  by_cases hany : m.any (fun kv => kv.1 == k) = true
  · rw [if_pos hany, find?_map_update_ne m k k' v h]
  · rw [if_neg hany, List.find?_append]
    have h2 : List.find? (fun kv => kv.1 == k') [(k, v)] = none := by
      rw [List.find?_cons_of_neg _ (by simpa using Ne.symm h)]
      rfl
    rw [h2, Option.or_none]

/-! ### The three passes of `partnerBalances` -/

theorem mapGet_initBalances_aux (ps : List Partner) (m0 : BalanceMap) (k : String) :
    mapGet (ps.foldl (fun m p => mapSet m p.id 0) m0) k
      = if ps.any (fun p => p.id == k) then some 0 else mapGet m0 k := by
  induction ps generalizing m0 with
  | nil => simp
  | cons p t ih =>
    rw [List.foldl_cons, ih, List.any_cons]
    by_cases hk : (p.id == k) = true
    · have hpk : p.id = k := by simpa using hk
      by_cases ht : t.any (fun p => p.id == k) = true
      · simp [ht, hk]
      · simp only [ht, hk, Bool.true_or, if_true, Bool.false_or, if_false,
          Bool.or_false]
        rw [if_neg (by simp [ht]), hpk, mapGet_mapSet_self]
    · have hf : (p.id == k) = false := by simpa using hk
      have hne : k ≠ p.id := fun he => hk (by simp [he])
      rw [mapGet_mapSet_ne _ _ _ _ hne, hf, Bool.false_or]

theorem mapGet_initBalances (ps : List Partner) (k : String) :
    mapGet (initBalances ps) k
      = if ps.any (fun p => p.id == k) then some 0 else none := by
  rw [initBalances, mapGet_initBalances_aux]
  rfl

theorem settledAmount_cons (t : Settlement) (ts : List Settlement) (k : String) :
    settledAmount (t :: ts) k
      = (if t.partnerId == k then t.amount else 0) + settledAmount ts k := by
  by_cases h : (t.partnerId == k) = true
  · simp [settledAmount, h]
  · have hf : (t.partnerId == k) = false := by simpa using h
    simp [settledAmount, hf]

theorem mapGet_debit_foldl (ts : List Settlement) (m : BalanceMap) (k : String) :
    mapGet (ts.foldl debitSettlement m) k
      = if (mapGet m k).isSome || ts.any (fun t => t.partnerId == k) then
          some ((mapGet m k).getD 0 - settledAmount ts k)
        else none := by
  induction ts generalizing m with
  | nil =>
    cases h : mapGet m k <;> simp [h, settledAmount]
  | cons t ts ih =>
    rw [List.foldl_cons, ih, List.any_cons, settledAmount_cons]
    by_cases htk : (t.partnerId == k) = true
    · have hk : t.partnerId = k := by simpa using htk
      have h1 : mapGet (debitSettlement m t) k
          = some ((mapGet m k).getD 0 - t.amount) := by
        rw [debitSettlement, hk, mapGet_mapSet_self]
      rw [h1]
      simp only [htk, Option.isSome_some, Bool.true_or, Bool.or_true, if_true,
        Option.getD_some, if_pos]
      ring_nf
    · have hne : k ≠ t.partnerId := fun he => htk (by simp [he])
      have h1 : mapGet (debitSettlement m t) k = mapGet m k := by
        rw [debitSettlement, mapGet_mapSet_ne _ _ _ _ hne]
      have hf : (t.partnerId == k) = false := by simpa using htk
      rw [h1, hf, Bool.false_or]
      simp

theorem mapGet_credit_foldl (sale : Sale) (qs : List Partner) (m : BalanceMap)
    (k : String) :
    mapGet (qs.foldl (fun m' partner =>
        mapSet m' partner.id
          ((mapGet m' partner.id).getD 0 + (sale.profit * partner.percentage) / 100)) m) k
      = if (mapGet m k).isSome || qs.any (fun q => q.id == k) then
          some ((mapGet m k).getD 0
            + ((qs.filter (fun q => q.id == k)).map (fun q => partnerCut sale q)).sum)
        else none := by
  induction qs generalizing m with
  | nil =>
    cases h : mapGet m k <;> simp [h]
  | cons q qs ih =>
    rw [List.foldl_cons, ih, List.any_cons]
    by_cases hqk : (q.id == k) = true
    · have hk : q.id = k := by simpa using hqk
      have h1 : mapGet (mapSet m q.id
            ((mapGet m q.id).getD 0 + (sale.profit * q.percentage) / 100)) k
          = some ((mapGet m k).getD 0 + partnerCut sale q) := by
        rw [hk, mapGet_mapSet_self, partnerCut]
      rw [h1]
      simp only [List.filter_cons, hqk, if_true, List.map_cons, List.sum_cons,
        Option.isSome_some, Bool.true_or, Bool.or_true, Option.getD_some]
      ring_nf
    · have hne : k ≠ q.id := fun he => hqk (by simp [he])
      have h1 : mapGet (mapSet m q.id
            ((mapGet m q.id).getD 0 + (sale.profit * q.percentage) / 100)) k
          = mapGet m k := mapGet_mapSet_ne _ _ _ _ hne
      have hf : (q.id == k) = false := by simpa using hqk
      rw [h1]
      simp only [List.filter_cons, hf, Bool.false_eq_true, if_false, Bool.false_or]

/-- Contribution of one sale to the accumulator of key `k`: the sum of the
cuts of the assigned partners whose id is `k` (a single cut when partner ids
are unique). -/
def saleContribution (partners : List Partner) (k : String) (s : Sale) : ℚ :=
  (((partners.filter (fun p => s.partnerIds.contains p.id)).filter
      (fun q => q.id == k)).map (fun q => partnerCut s q)).sum

theorem mapGet_creditSale (partners : List Partner) (m : BalanceMap) (sale : Sale)
    (k : String) :
    mapGet (creditSale partners m sale) k
      = if (mapGet m k).isSome
           || (partners.filter (fun p => sale.partnerIds.contains p.id)).any
                (fun q => q.id == k) then
          some ((mapGet m k).getD 0 + saleContribution partners k sale)
        else none := by
  rw [creditSale, saleContribution]
  by_cases hl : 0 < (partners.filter (fun p => sale.partnerIds.contains p.id)).length
  · simp only [hl, if_true]
    exact mapGet_credit_foldl sale _ m k
  · have hnil : partners.filter (fun p => sale.partnerIds.contains p.id) = [] := by
      cases hfil : partners.filter (fun p => sale.partnerIds.contains p.id) with
      | nil => rfl
      | cons a l => rw [hfil] at hl; simp at hl
    rw [hnil]
    simp only [List.length_nil, lt_irrefl, if_false, List.any_nil, Bool.or_false,
      List.filter_nil, List.map_nil, List.sum_nil, add_zero]
    cases h : mapGet m k <;> simp [h]

theorem mapGet_creditSale_foldl_some (partners : List Partner) (sales : List Sale)
    (m : BalanceMap) (k : String) (v : ℚ) (h : mapGet m k = some v) :
    mapGet (sales.foldl (creditSale partners) m) k
      = some (v + (sales.map (saleContribution partners k)).sum) := by
  induction sales generalizing m v with
  | nil => simp [h]
  | cons s ss ih =>
    have h1 : mapGet (creditSale partners m s) k
        = some (v + saleContribution partners k s) := by
      rw [mapGet_creditSale, h]
      simp
    rw [List.foldl_cons, ih _ _ h1, List.map_cons, List.sum_cons]
    congr 1
    ring

theorem mapGet_creditSale_foldl_ne (partners : List Partner) (sales : List Sale)
    (m : BalanceMap) (k : String) (h : ∀ p ∈ partners, p.id ≠ k) :
    mapGet (sales.foldl (creditSale partners) m) k = mapGet m k := by
  induction sales generalizing m with
  | nil => rfl
  | cons s ss ih =>
    have hany : ((partners.filter (fun p => s.partnerIds.contains p.id)).any
        (fun q => q.id == k)) = false := by
      rw [Bool.eq_false_iff]
      intro hc
      obtain ⟨q, hq, hbeq⟩ := List.any_eq_true.mp hc
      exact h q (List.mem_of_mem_filter hq) (by simpa using hbeq)
    have hfil : ((partners.filter (fun p => s.partnerIds.contains p.id)).filter
        (fun q => q.id == k)) = [] := by
      rw [List.filter_eq_nil_iff]
      intro q hq hbeq
      exact h q (List.mem_of_mem_filter hq) (by simpa using hbeq)
    have h1 : mapGet (creditSale partners m s) k = mapGet m k := by
      rw [mapGet_creditSale, saleContribution, hfil, hany, Bool.or_false]
      cases hm : mapGet m k <;> simp [hm]
    rw [List.foldl_cons]
    rw [show creditSale partners m s = creditSale partners m s from rfl] at h1
    rw [ih (creditSale partners m s), h1]

/-! ### The balance formula -/

theorem filter_and_id (partners : List Partner) (p : Partner) (c : Partner → Bool)
    (hnd : (partners.map Partner.id).Nodup) (hp : p ∈ partners) :
    partners.filter (fun q => (q.id == p.id) && c q)
      = if c p then [p] else [] := by
  induction partners with
  | nil => cases hp
  | cons q t ih =>
    rw [List.map_cons, List.nodup_cons] at hnd
    rcases List.mem_cons.mp hp with rfl | hp'
    · have hnil : t.filter (fun q => (q.id == p.id) && c q) = [] := by
        rw [List.filter_eq_nil_iff]
        intro r hr hb
        rw [Bool.and_eq_true] at hb
        have hr1 : r.id = p.id := by simpa using hb.1
        refine absurd ?_ hnd.1
        rw [← hr1]
        exact List.mem_map_of_mem Partner.id hr
      by_cases hc : c p = true
      · simp [List.filter_cons, hc, hnil]
      · have hcf : c p = false := by simpa using hc
        simp [List.filter_cons, hcf, hnil]
    · have hq : (q.id == p.id) = false := by
        rw [beq_eq_false_iff_ne]
        intro he
        exact hnd.1 (he ▸ List.mem_map_of_mem Partner.id hp')
      simp only [List.filter_cons, hq, Bool.false_and, Bool.false_eq_true, if_false]
      exact ih hnd.2 hp'

theorem saleContribution_eq (partners : List Partner) (p : Partner) (s : Sale)
    (hnd : (partners.map Partner.id).Nodup) (hp : p ∈ partners) :
    saleContribution partners p.id s
      = if s.partnerIds.contains p.id then partnerCut s p else 0 := by
  rw [saleContribution, List.filter_filter,
    filter_and_id partners p (fun q => s.partnerIds.contains q.id) hnd hp]
  by_cases hm : p.id ∈ s.partnerIds
  · simp [hm]
  · simp [hm]

theorem sum_map_ite (sales : List Sale) (c : Sale → Bool) (f : Sale → ℚ) :
    (sales.map (fun s => if c s then f s else 0)).sum
      = ((sales.filter c).map f).sum := by
  induction sales with
  | nil => rfl
  | cons s ss ih =>
    by_cases h : c s = true
    · simp [List.filter_cons, h, ih]
    · have hf : c s = false := by simpa using h
      simp [List.filter_cons, hf, ih]

/-- The balance `partnerBalances` assigns to a partner of the partner set:
total profit share minus total settled amount. -/
theorem balances_formula (partners : List Partner) (sales : List Sale)
    (settlements : List Settlement) (p : Partner)
    (hnd : (partners.map Partner.id).Nodup) (hp : p ∈ partners) :
    mapGet (partnerBalances partners sales settlements) p.id
      = some (salesShare sales p - settledAmount settlements p.id) := by
  have h0 : mapGet (initBalances partners) p.id = some 0 := by
    rw [mapGet_initBalances, if_pos (List.any_eq_true.mpr ⟨p, hp, by simp⟩)]
  have hsum : (sales.map (saleContribution partners p.id)).sum = salesShare sales p := by
    rw [salesShare, ← sum_map_ite sales (fun s => s.partnerIds.contains p.id)
      (fun s => partnerCut s p)]
    congr 1
    exact List.map_congr_left (fun s _ => saleContribution_eq partners p s hnd hp)
  have h1 : mapGet (sales.foldl (creditSale partners) (initBalances partners)) p.id
      = some (salesShare sales p) := by
    rw [mapGet_creditSale_foldl_some partners sales _ _ 0 h0, zero_add, hsum]
  rw [partnerBalances, mapGet_debit_foldl, h1]
  simp

/-- The balance entry of a key that is no partner's id: created by the
settlement pass alone, absent when no settlement references it. -/
theorem balances_ghost (partners : List Partner) (sales : List Sale)
    (settlements : List Settlement) (g : String)
    (hg : ∀ q ∈ partners, q.id ≠ g) :
    mapGet (partnerBalances partners sales settlements) g
      = if settlements.any (fun t => t.partnerId == g) then
          some (0 - settledAmount settlements g)
        else none := by
  have h0 : mapGet (initBalances partners) g = none := by
    rw [mapGet_initBalances, if_neg]
    intro hc
    obtain ⟨q, hq, hbeq⟩ := List.any_eq_true.mp hc
    exact hg q hq (by simpa using hbeq)
  have h1 : mapGet (sales.foldl (creditSale partners) (initBalances partners)) g
      = none := by
    rw [mapGet_creditSale_foldl_ne partners sales _ g hg, h0]
  rw [partnerBalances, mapGet_debit_foldl, h1]
  simp

/-! ### Claim C1 -/

/-- C1: for every snapshot, `partnerBalances` assigns to each partner `p` of
the partner set the value `Σ (profit * percentage / 100)` over the sales
referencing `p.id`, minus `Σ amount` over the settlements for `p.id`; a
partner with no assigned sales and no settlements appears with balance 0. -/
theorem c1_partner_balance_formula (partners : List Partner) (sales : List Sale)
    (settlements : List Settlement) (p : Partner)
    (hnd : (partners.map Partner.id).Nodup) (hp : p ∈ partners) :
    mapGet (partnerBalances partners sales settlements) p.id
      = some (salesShare sales p - settledAmount settlements p.id)
    ∧ ((∀ s ∈ sales, p.id ∉ s.partnerIds) → (∀ t ∈ settlements, t.partnerId ≠ p.id) →
        mapGet (partnerBalances partners sales settlements) p.id = some 0) := by
  refine ⟨balances_formula partners sales settlements p hnd hp, fun hs ht => ?_⟩
  rw [balances_formula partners sales settlements p hnd hp]
  have h1 : salesShare sales p = 0 := by
    rw [salesShare]
    have hnil : sales.filter (fun s => s.partnerIds.contains p.id) = [] := by
      rw [List.filter_eq_nil_iff]
      intro s hsm hc
      exact hs s hsm (by simpa using hc)
    rw [hnil]
    rfl
  have h2 : settledAmount settlements p.id = 0 := by
    rw [settledAmount]
    have hnil : settlements.filter (fun t => t.partnerId == p.id) = [] := by
      rw [List.filter_eq_nil_iff]
      intro t htm hc
      exact ht t htm (by simpa using hc)
    rw [hnil]
    rfl
  rw [h1, h2]
  norm_num

/-- Witness for C1 at the spec's running example. -/
theorem c1_partner_balance_formula_witness :
    mapGet (partnerBalances [⟨"a", "A", 60⟩, ⟨"b", "B", 40⟩]
        [⟨"s1", "phone", none, 20, 120, 100, 0, ["a"]⟩]
        [⟨"t1", "a", 30, 0⟩]) "a"
      = some (salesShare [⟨"s1", "phone", none, 20, 120, 100, 0, ["a"]⟩] ⟨"a", "A", 60⟩
          - settledAmount [⟨"t1", "a", 30, 0⟩] "a")
    ∧ mapGet (partnerBalances [⟨"a", "A", 60⟩, ⟨"b", "B", 40⟩]
        [⟨"s1", "phone", none, 20, 120, 100, 0, ["a"]⟩]
        [⟨"t1", "a", 30, 0⟩]) "b" = some 0 :=
  ⟨(c1_partner_balance_formula [⟨"a", "A", 60⟩, ⟨"b", "B", 40⟩]
      [⟨"s1", "phone", none, 20, 120, 100, 0, ["a"]⟩]
      [⟨"t1", "a", 30, 0⟩] ⟨"a", "A", 60⟩ (by decide) (by decide)).1,
   (c1_partner_balance_formula [⟨"a", "A", 60⟩, ⟨"b", "B", 40⟩]
      [⟨"s1", "phone", none, 20, 120, 100, 0, ["a"]⟩]
      [⟨"t1", "a", 30, 0⟩] ⟨"b", "B", 40⟩ (by decide) (by decide)).2
     (by decide) (by decide)⟩

/-! ### Claim C5 -/

/-- C5 counterexample: a settlement whose `partnerId` is not in the partner
set does change the result of the balance computation — the settlement pass
creates a map entry for the nonexistent id holding `-amount`. -/
theorem c5_counterexample :
    partnerBalances [] [] [⟨"t1", "ghost", 5, 0⟩] ≠ partnerBalances [] [] []
    ∧ mapGet (partnerBalances [] [] [⟨"t1", "ghost", 5, 0⟩]) "ghost" = some (-5) := by
  constructor
  · norm_num +decide [partnerBalances, creditSale, debitSettlement, initBalances,
      mapSet, mapGet]
  · norm_num +decide [partnerBalances, creditSale, debitSettlement, initBalances,
      mapSet, mapGet]

/-- C5 amended: a settlement referencing a partner id absent from the partner
set contributes nothing to any partner of the partner set (removing it leaves
every partner's balance entry unchanged), but a balance entry IS created for
the nonexistent id, holding minus the total amount settled under that id. -/
theorem c5_amended_ghost_settlement (partners : List Partner) (sales : List Sale)
    (pre post : List Settlement) (t : Settlement) (p : Partner)
    (hnd : (partners.map Partner.id).Nodup)
    (hg : ∀ q ∈ partners, q.id ≠ t.partnerId)
    (hp : p ∈ partners) :
    mapGet (partnerBalances partners sales (pre ++ t :: post)) p.id
      = mapGet (partnerBalances partners sales (pre ++ post)) p.id
    ∧ mapGet (partnerBalances partners sales (pre ++ t :: post)) t.partnerId
      = some (0 - settledAmount (pre ++ t :: post) t.partnerId) := by
  constructor
  · rw [balances_formula partners sales (pre ++ t :: post) p hnd hp,
      balances_formula partners sales (pre ++ post) p hnd hp]
    have htp : (t.partnerId == p.id) = false :=
      beq_eq_false_iff_ne.mpr (Ne.symm (hg p hp))
    have hset : settledAmount (pre ++ t :: post) p.id
        = settledAmount (pre ++ post) p.id := by
      rw [settledAmount, settledAmount, List.filter_append, List.filter_append,
        List.filter_cons]
      simp only [htp, Bool.false_eq_true, if_false]
    rw [hset]
  · rw [balances_ghost partners sales (pre ++ t :: post) t.partnerId hg, if_pos]
    exact List.any_eq_true.mpr ⟨t, by simp, by simp⟩

/-- Witness for the amended C5. -/
theorem c5_amended_ghost_settlement_witness :
    mapGet (partnerBalances [⟨"a", "A", 50⟩] [] ([] ++ ⟨"t1", "ghost", 5, 0⟩ :: []))
        "a"
      = mapGet (partnerBalances [⟨"a", "A", 50⟩] [] ([] ++ [])) "a"
    ∧ mapGet (partnerBalances [⟨"a", "A", 50⟩] [] ([] ++ ⟨"t1", "ghost", 5, 0⟩ :: []))
        "ghost"
      = some (0 - settledAmount ([] ++ ⟨"t1", "ghost", 5, 0⟩ :: []) "ghost") :=
  c5_amended_ghost_settlement [⟨"a", "A", 50⟩] [] [] [] ⟨"t1", "ghost", 5, 0⟩
    ⟨"a", "A", 50⟩ (by decide) (by decide) (by decide)

/-! ### Claim C6 -/

/-- C6: `partnerBalances` is invariant under permutation of the sales and of
the settlements: every partner of the (identical) partner set gets the same
balance. -/
theorem c6_permutation_invariant (partners : List Partner)
    (sales1 sales2 : List Sale) (set1 set2 : List Settlement) (p : Partner)
    (hnd : (partners.map Partner.id).Nodup) (hp : p ∈ partners)
    (hs : sales1.Perm sales2) (ht : set1.Perm set2) :
    mapGet (partnerBalances partners sales1 set1) p.id
      = mapGet (partnerBalances partners sales2 set2) p.id := by
  rw [balances_formula partners sales1 set1 p hnd hp,
    balances_formula partners sales2 set2 p hnd hp]
  have h1 : salesShare sales1 p = salesShare sales2 p :=
    List.Perm.sum_eq ((hs.filter _).map _)
  have h2 : settledAmount set1 p.id = settledAmount set2 p.id :=
    List.Perm.sum_eq ((ht.filter _).map _)
  rw [h1, h2]

/-- Witness for C6 on concrete permuted inputs. -/
theorem c6_permutation_invariant_witness :
    mapGet (partnerBalances [⟨"a", "A", 60⟩]
        [⟨"s1", "x", none, 0, 10, 10, 0, ["a"]⟩, ⟨"s2", "y", none, 0, 20, 20, 0, ["a"]⟩]
        [⟨"t1", "a", 1, 0⟩, ⟨"t2", "a", 2, 0⟩]) "a"
      = mapGet (partnerBalances [⟨"a", "A", 60⟩]
        [⟨"s2", "y", none, 0, 20, 20, 0, ["a"]⟩, ⟨"s1", "x", none, 0, 10, 10, 0, ["a"]⟩]
        [⟨"t2", "a", 2, 0⟩, ⟨"t1", "a", 1, 0⟩]) "a" :=
  c6_permutation_invariant [⟨"a", "A", 60⟩] _ _ _ _ ⟨"a", "A", 60⟩
    (by decide) (by decide)
    (List.Perm.swap _ _ _) (List.Perm.swap _ _ _)


/-! ### Claim C2 -/

theorem settledAmount_append_same (settlements : List Settlement) (pid : String)
    (a : ℚ) (sid : String) (ts : ℚ) :
    settledAmount (addSettlement settlements pid a sid ts) pid
      = settledAmount settlements pid + a := by
  rw [addSettlement, settledAmount, settledAmount, List.filter_append,
    List.map_append, List.sum_append]
  simp [List.filter_cons]

theorem settledAmount_append_other (settlements : List Settlement) (pid : String)
    (a : ℚ) (sid : String) (ts : ℚ) (k : String) (h : pid ≠ k) :
    settledAmount (addSettlement settlements pid a sid ts) k
      = settledAmount settlements k := by
  rw [addSettlement, settledAmount, settledAmount, List.filter_append,
    List.map_append, List.sum_append]
  have hb : ((⟨sid, pid, a, ts⟩ : Settlement).partnerId == k) = false :=
    beq_eq_false_iff_ne.mpr h
  simp [List.filter_cons, hb]

/-- C2: for a partner `p` of the partner set with computed balance `b`, a
settlement request of finite amount `a` is accepted iff `0 < a ∧ a ≤ b`; and
appending an accepted settlement makes `p`'s recomputed balance exactly
`b - a` while every other partner's balance is unchanged. -/
theorem c2_settlement_accept_and_decrement (partners : List Partner)
    (sales : List Sale) (settlements : List Settlement) (p : Partner)
    (hnd : (partners.map Partner.id).Nodup) (hp : p ∈ partners) :
    (∀ a : ℚ, handleSettle partners sales settlements p (.fin a) = .accepted (.fin a)
       ↔ 0 < a ∧ a ≤ (mapGet (partnerBalances partners sales settlements) p.id).getD 0)
    ∧ (∀ (a : ℚ) (sid : String) (ts : ℚ),
        handleSettle partners sales settlements p (.fin a) = .accepted (.fin a) →
        mapGet (partnerBalances partners sales
            (addSettlement settlements p.id a sid ts)) p.id
          = some ((mapGet (partnerBalances partners sales settlements) p.id).getD 0 - a)
        ∧ (∀ q ∈ partners, q.id ≠ p.id →
            mapGet (partnerBalances partners sales
                (addSettlement settlements p.id a sid ts)) q.id
              = mapGet (partnerBalances partners sales settlements) q.id)) := by
  have hb := balances_formula partners sales settlements p hnd hp
  have hiff : ∀ a : ℚ,
      handleSettle partners sales settlements p (.fin a) = .accepted (.fin a)
        ↔ 0 < a ∧ a ≤ (mapGet (partnerBalances partners sales settlements) p.id).getD 0 := by
    intro a
    rw [handleSettle, hb]
    simp only [Option.getD_some, jsIsNaN, jsLe, jsLt, Bool.false_or]
    by_cases h1 : a ≤ 0
    · simp [h1, not_lt.mpr h1]
    · by_cases h2 : salesShare sales p - settledAmount settlements p.id < a
      · simp [h1, h2, not_le.mpr h2]
      · simp [h1, h2, lt_of_not_le h1, not_lt.mp h2]
  refine ⟨hiff, fun a sid ts hacc => ?_⟩
  constructor
  · rw [balances_formula partners sales (addSettlement settlements p.id a sid ts) p
      hnd hp, settledAmount_append_same, hb]
    simp only [Option.getD_some]
    congr 1
    ring
  · intro q hq hqp
    rw [balances_formula partners sales (addSettlement settlements p.id a sid ts) q
      hnd hq, settledAmount_append_other settlements p.id a sid ts q.id (Ne.symm hqp),
      balances_formula partners sales settlements q hnd hq]

/-- Witness for C2 at the spec's running example: A is owed 60, settling 30
is accepted and leaves A at 30, B unchanged at 40. -/
theorem c2_settlement_accept_and_decrement_witness :
    (handleSettle [⟨"a", "A", 60⟩, ⟨"b", "B", 40⟩]
        [⟨"s1", "phone", none, 0, 100, 100, 0, ["a", "b"]⟩] [] ⟨"a", "A", 60⟩ (.fin 30)
       = .accepted (.fin 30)
     ↔ 0 < (30 : ℚ) ∧ (30 : ℚ) ≤ (mapGet (partnerBalances [⟨"a", "A", 60⟩, ⟨"b", "B", 40⟩]
          [⟨"s1", "phone", none, 0, 100, 100, 0, ["a", "b"]⟩] []) "a").getD 0)
    ∧ mapGet (partnerBalances [⟨"a", "A", 60⟩, ⟨"b", "B", 40⟩]
        [⟨"s1", "phone", none, 0, 100, 100, 0, ["a", "b"]⟩]
        (addSettlement [] "a" 30 "t1" 0)) "a"
      = some ((mapGet (partnerBalances [⟨"a", "A", 60⟩, ⟨"b", "B", 40⟩]
          [⟨"s1", "phone", none, 0, 100, 100, 0, ["a", "b"]⟩] []) "a").getD 0 - 30)
    ∧ mapGet (partnerBalances [⟨"a", "A", 60⟩, ⟨"b", "B", 40⟩]
        [⟨"s1", "phone", none, 0, 100, 100, 0, ["a", "b"]⟩]
        (addSettlement [] "a" 30 "t1" 0)) "b"
      = mapGet (partnerBalances [⟨"a", "A", 60⟩, ⟨"b", "B", 40⟩]
          [⟨"s1", "phone", none, 0, 100, 100, 0, ["a", "b"]⟩] []) "b" := by
  have h := c2_settlement_accept_and_decrement [⟨"a", "A", 60⟩, ⟨"b", "B", 40⟩]
    [⟨"s1", "phone", none, 0, 100, 100, 0, ["a", "b"]⟩] [] ⟨"a", "A", 60⟩
    (by decide) (by decide)
  have hacc : handleSettle [⟨"a", "A", 60⟩, ⟨"b", "B", 40⟩]
      [⟨"s1", "phone", none, 0, 100, 100, 0, ["a", "b"]⟩] [] ⟨"a", "A", 60⟩ (.fin 30)
      = .accepted (.fin 30) := by
    norm_num +decide [handleSettle, partnerBalances, creditSale, debitSettlement,
      initBalances, mapSet, mapGet, jsIsNaN, jsLe, jsLt]
  exact ⟨h.1 30, (h.2 30 "t1" 0 hacc).1, (h.2 30 "t1" 0 hacc).2 ⟨"b", "B", 40⟩
    (by decide) (by decide)⟩

/-! ### Claim C7 -/

/-- C7 counterexample: a request of `Infinity` — not a positive finite
number — is NOT rejected with `InvalidAmount`: it passes the
`isNaN(amount) || amount <= 0` check and is rejected as `ExceedsOwed`. -/
theorem c7_counterexample :
    handleSettle [] [] [] ⟨"p1", "P", 50⟩ JSNum.posInf = .exceedsOwed 0
    ∧ handleSettle [] [] [] ⟨"p1", "P", 50⟩ JSNum.posInf ≠ .invalidAmount := by
  constructor
  · norm_num +decide [handleSettle, partnerBalances, creditSale, debitSettlement,
      initBalances, mapSet, mapGet, jsIsNaN, jsLe, jsLt]
  · norm_num +decide [handleSettle, partnerBalances, creditSale, debitSettlement,
      initBalances, mapSet, mapGet, jsIsNaN, jsLe, jsLt]

/-- C7 amended: a requested amount that is `NaN`, zero, negative, or
`-Infinity` is rejected with `InvalidAmount` (and no other reason); a
`+Infinity` amount is instead rejected with `ExceedsOwed`, since the code
checks `isNaN` and `<= 0` but not finiteness. -/
theorem c7_amended_invalid_amount (partners : List Partner) (sales : List Sale)
    (settlements : List Settlement) (p : Partner) (amount : JSNum) :
    ((amount = .nan ∨ amount = .negInf ∨ (∃ q : ℚ, q ≤ 0 ∧ amount = .fin q)) →
      handleSettle partners sales settlements p amount = .invalidAmount)
    ∧ (amount = .posInf →
        ∃ w : ℚ, handleSettle partners sales settlements p amount = .exceedsOwed w) := by
  constructor
  · rintro (rfl | rfl | ⟨q, hq, rfl⟩)
    · rw [handleSettle]
      simp [jsIsNaN]
    · rw [handleSettle]
      simp [jsIsNaN, jsLe]
    · rw [handleSettle]
      simp [jsIsNaN, jsLe, hq]
  · rintro rfl
    refine ⟨(mapGet (partnerBalances partners sales settlements) p.id).getD 0, ?_⟩
    rw [handleSettle]
    simp [jsIsNaN, jsLe, jsLt]

/-- Witness for the amended C7. -/
theorem c7_amended_invalid_amount_witness :
    handleSettle [] [] [] ⟨"p1", "P", 50⟩ (JSNum.fin (-1)) = .invalidAmount
    ∧ ∃ w : ℚ, handleSettle [] [] [] ⟨"p1", "P", 50⟩ JSNum.posInf = .exceedsOwed w :=
  ⟨(c7_amended_invalid_amount [] [] [] ⟨"p1", "P", 50⟩ (JSNum.fin (-1))).1
      (Or.inr (Or.inr ⟨-1, by norm_num, rfl⟩)),
   (c7_amended_invalid_amount [] [] [] ⟨"p1", "P", 50⟩ JSNum.posInf).2 rfl⟩

/-! ### Claim C8 -/

theorem totalPercentage_aux (ps : List Partner) (a : ℚ) :
    ps.foldl (fun sum p => sum + p.percentage) a
      = a + (ps.map Partner.percentage).sum := by
  induction ps generalizing a with
  | nil => simp
  | cons p t ih =>
    rw [List.foldl_cons, ih, List.map_cons, List.sum_cons]
    ring

theorem totalPercentage_eq_sum (ps : List Partner) :
    totalPercentage ps = (ps.map Partner.percentage).sum := by
  rw [totalPercentage, totalPercentage_aux, zero_add]

/-- C8: with a valid request (nonblank name, `0 < p ≤ 100`) and current total
`S ≤ 100`, the add-partner validation succeeds iff `S + p ≤ 100`, and on
failure it reports `AllocationExceeded` carrying the current total `S`. -/
theorem c8_allocation_check (partners : List Partner) (nm : String) (p : ℚ)
    (hname : isBlank nm = false) (hp0 : 0 < p) (hp100 : p ≤ 100)
    (_hS : totalPercentage partners ≤ 100) :
    (handleSubmitPartner partners nm (.fin p) = .ok p
       ↔ totalPercentage partners + p ≤ 100)
    ∧ (100 < totalPercentage partners + p →
        handleSubmitPartner partners nm (.fin p)
          = .allocationExceeded (totalPercentage partners)) := by
  rw [handleSubmitPartner, hname]
  simp only [Bool.false_eq_true, if_false, jsIsNaN, jsLe, jsLt, jsAdd,
    Bool.false_or]
  rw [if_neg (by simp [not_le.mpr hp0, not_lt.mpr hp100])]
  constructor
  · by_cases h : 100 < totalPercentage partners + p
    · simp [h, not_le.mpr h]
    · simp [h, not_lt.mp h]
  · intro h
    simp [h]

/-- Witness for C8 at the spec's example: adding C at 50% when the total is
already 100% fails and reports the current total. -/
theorem c8_allocation_check_witness :
    handleSubmitPartner [⟨"a", "A", 60⟩, ⟨"b", "B", 40⟩] "C" (.fin 50)
      = .allocationExceeded (totalPercentage [⟨"a", "A", 60⟩, ⟨"b", "B", 40⟩]) :=
  (c8_allocation_check [⟨"a", "A", 60⟩, ⟨"b", "B", 40⟩] "C" 50
    (by decide) (by norm_num) (by norm_num)
    (by norm_num [totalPercentage])).2 (by norm_num [totalPercentage])

/-! ### Claim C3 -/

theorem handleSubmitPartner_ok_inv (partners : List Partner) (nm : String)
    (perc : JSNum) (q : ℚ) (h : handleSubmitPartner partners nm perc = .ok q) :
    0 < q ∧ q ≤ 100 ∧ totalPercentage partners + q ≤ 100 ∧ perc = .fin q := by
  unfold handleSubmitPartner at h
  by_cases hn : isBlank nm = true
  · rw [if_pos hn] at h
    exact absurd h (by simp)
  · rw [if_neg hn] at h
    by_cases h2 : (jsIsNaN perc || jsLe perc (.fin 0) || jsLt (.fin 100) perc) = true
    · rw [if_pos h2] at h
      exact absurd h (by simp)
    · rw [if_neg h2] at h
      by_cases h3 : jsLt (.fin 100) (jsAdd (.fin (totalPercentage partners)) perc)
          = true
      · rw [if_pos h3] at h
        exact absurd h (by simp)
      · rw [if_neg h3] at h
        cases perc with
        | nan => exact absurd h (by simp)
        | negInf => exact absurd h (by simp)
        | posInf =>
          exfalso
          exact h3 (by simp [jsAdd, jsLt])
        | fin r =>
          have hrq : r = q := by simpa using h
          subst hrq
          simp only [jsIsNaN, jsLe, jsLt, Bool.false_or, Bool.or_eq_true,
            decide_eq_true_eq, not_or] at h2
          simp only [jsAdd, jsLt, decide_eq_true_eq] at h3
          exact ⟨lt_of_not_le h2.1, not_lt.mp h2.2, not_lt.mp h3, rfl⟩

theorem totalPercentage_filter_le (ps : List Partner) (f : Partner → Bool)
    (hpos : ∀ p ∈ ps, 0 < p.percentage) :
    totalPercentage (ps.filter f) ≤ totalPercentage ps := by
  induction ps with
  | nil => simp [totalPercentage]
  | cons p t ih =>
    have ihle := ih (fun r hr => hpos r (List.mem_cons_of_mem p hr))
    have hp := hpos p (List.mem_cons_self p t)
    simp only [totalPercentage_eq_sum] at ihle ⊢
    by_cases hf : f p = true
    · rw [List.filter_cons, if_pos hf, List.map_cons, List.sum_cons,
        List.map_cons, List.sum_cons]
      linarith
    · rw [List.filter_cons, if_neg hf, List.map_cons, List.sum_cons]
      linarith

theorem reachable_invariant (ps : List Partner) (h : ReachablePartners ps) :
    (∀ p ∈ ps, 0 < p.percentage) ∧ totalPercentage ps ≤ 100 := by
  induction h with
  | empty =>
    exact ⟨fun p hp => absurd hp (List.not_mem_nil p), by norm_num [totalPercentage]⟩
  | add partners nm perc q id hr hok ih =>
    obtain ⟨hq0, hq100, hsum, hperc⟩ := handleSubmitPartner_ok_inv partners nm perc q hok
    constructor
    · intro p hp
      rcases List.mem_append.mp hp with hp1 | hp2
      · exact ih.1 p hp1
      · have : p = { id := id, name := nm, percentage := q } := by simpa using hp2
        rw [this]
        exact hq0
    · rw [addPartner, totalPercentage_eq_sum, List.map_append, List.sum_append,
        ← totalPercentage_eq_sum]
      simpa using hsum
  | delete partners d hr ih =>
    exact ⟨fun p hp => ih.1 p (List.mem_of_mem_filter hp),
      le_trans (totalPercentage_filter_le partners _ ih.1) ih.2⟩

/-- C3: in every partner collection reachable from the empty ledger by the
add-partner operation (committed only when validation passes) and the
delete-partner operation, the percentages sum to at most 100. -/
theorem c3_allocation_invariant (ps : List Partner) (h : ReachablePartners ps) :
    totalPercentage ps ≤ 100 :=
  (reachable_invariant ps h).2

/-- Witness for C3: reach a state by one validated add, then a delete. -/
theorem c3_allocation_invariant_witness :
    totalPercentage ((addPartner [] "i" "A" 40).filter (fun p => p.id != "j")) ≤ 100 :=
  c3_allocation_invariant _
    (ReachablePartners.delete _ "j"
      (ReachablePartners.add [] "A" (.fin 40) 40 "i" ReachablePartners.empty
        (by norm_num +decide [handleSubmitPartner, totalPercentage, isBlank,
          jsIsNaN, jsLe, jsLt, jsAdd])))

/-! ### Claim C4 -/

theorem ledgerState_ext (a b : LedgerState) (h1 : a.sales = b.sales)
    (h2 : a.partners = b.partners) (h3 : a.settlements = b.settlements) :
    a = b := by
  cases a
  cases b
  cases h1
  cases h2
  cases h3
  rfl

theorem deletePartner_sales_eq (st : LedgerState) (d : String) :
    (deletePartner st d).sales
      = st.sales.map (fun s =>
          { s with partnerIds := s.partnerIds.filter (fun pid => pid != d) }) := by
  apply List.map_congr_left
  intro s _
  by_cases hc : s.partnerIds.contains d = true
  · rw [if_pos hc]
  · rw [if_neg hc]
    have hfe : s.partnerIds.filter (fun pid => pid != d) = s.partnerIds := by
      rw [List.filter_eq_self]
      intro x hx
      have hxd : x ≠ d := fun he => hc (by rw [he] at hx; simpa using hx)
      simpa using hxd
    rw [hfe]

/-- C4: deleting partner id `d` removes the partner with id `d`, removes
every settlement for `d`, strips `d` from every sale's `partnerIds` leaving
all other sale fields unchanged, and is idempotent (deleting an id that is
not present is a no-op on the partner collection, not an error). -/
theorem c4_delete_partner_cascade (st : LedgerState) (d : String) :
    (∀ p : Partner, p ∈ (deletePartner st d).partners ↔ p ∈ st.partners ∧ p.id ≠ d)
    ∧ (∀ t : Settlement,
        t ∈ (deletePartner st d).settlements ↔ t ∈ st.settlements ∧ t.partnerId ≠ d)
    ∧ (deletePartner st d).sales
        = st.sales.map (fun s =>
            { s with partnerIds := s.partnerIds.filter (fun pid => pid != d) })
    ∧ (∀ s ∈ (deletePartner st d).sales, d ∉ s.partnerIds)
    ∧ deletePartner (deletePartner st d) d = deletePartner st d := by
  refine ⟨?_, ?_, deletePartner_sales_eq st d, ?_, ?_⟩
  · intro p
    simp [deletePartner, List.mem_filter]
  · intro t
    simp [deletePartner, List.mem_filter]
  · intro s hs
    rw [deletePartner_sales_eq st d] at hs
    obtain ⟨s0, _, rfl⟩ := List.mem_map.mp hs
    intro hd
    have hmem := List.mem_filter.mp hd
    simp at hmem
  · refine ledgerState_ext _ _ ?_ ?_ ?_
    · rw [deletePartner_sales_eq (deletePartner st d) d, deletePartner_sales_eq st d,
        List.map_map]
      apply List.map_congr_left
      intro s _
      show ({ s with partnerIds :=
          (s.partnerIds.filter (fun pid => pid != d)).filter (fun pid => pid != d) } : Sale)
        = { s with partnerIds := s.partnerIds.filter (fun pid => pid != d) }
      rw [List.filter_filter]
      simp [Bool.and_self]
    · show ((deletePartner st d).partners.filter (fun p => p.id != d))
        = st.partners.filter (fun p => p.id != d)
      show ((st.partners.filter (fun p => p.id != d)).filter (fun p => p.id != d))
        = st.partners.filter (fun p => p.id != d)
      rw [List.filter_filter]
      simp [Bool.and_self]
    · show ((st.settlements.filter (fun s => s.partnerId != d)).filter
          (fun s => s.partnerId != d))
        = st.settlements.filter (fun s => s.partnerId != d)
      rw [List.filter_filter]
      simp [Bool.and_self]

/-- Witness for C4 at a concrete state. -/
theorem c4_delete_partner_cascade_witness :
    deletePartner (deletePartner
        ⟨[⟨"s1", "x", none, 0, 10, 10, 0, ["a", "b"]⟩], [⟨"a", "A", 60⟩, ⟨"b", "B", 40⟩],
          [⟨"t1", "b", 5, 0⟩]⟩ "b") "b"
      = deletePartner
        ⟨[⟨"s1", "x", none, 0, 10, 10, 0, ["a", "b"]⟩], [⟨"a", "A", 60⟩, ⟨"b", "B", 40⟩],
          [⟨"t1", "b", 5, 0⟩]⟩ "b" :=
  (c4_delete_partner_cascade
    ⟨[⟨"s1", "x", none, 0, 10, 10, 0, ["a", "b"]⟩], [⟨"a", "A", 60⟩, ⟨"b", "B", 40⟩],
      [⟨"t1", "b", 5, 0⟩]⟩ "b").2.2.2.2

/-! ### Claim C10 -/

theorem salesShare_map_invariant (g : Sale → Sale) (sales : List Sale) (q : Partner)
    (hcont : ∀ s, (g s).partnerIds.contains q.id = s.partnerIds.contains q.id)
    (hprofit : ∀ s, (g s).profit = s.profit) :
    salesShare (sales.map g) q = salesShare sales q := by
  simp only [salesShare]
  induction sales with
  | nil => rfl
  | cons s ss ih =>
    rw [List.map_cons, List.filter_cons, List.filter_cons, hcont s]
    by_cases hcc : s.partnerIds.contains q.id = true
    · rw [if_pos hcc, if_pos hcc, List.map_cons, List.map_cons, List.sum_cons,
        List.sum_cons, ih]
      congr 1
      rw [partnerCut, partnerCut, hprofit s]
    · rw [if_neg hcc, if_neg hcc, ih]

theorem settledAmount_filter_ne (settlements : List Settlement) (k d : String)
    (h : k ≠ d) :
    settledAmount (settlements.filter (fun s => s.partnerId != d)) k
      = settledAmount settlements k := by
  induction settlements with
  | nil => rfl
  | cons t ts ih =>
    rw [List.filter_cons]
    by_cases hb : (t.partnerId != d) = true
    · rw [if_pos hb, settledAmount_cons, settledAmount_cons, ih]
    · have htd : t.partnerId = d := by simpa using hb
      have hbk : (t.partnerId == k) = false :=
        beq_eq_false_iff_ne.mpr (by rw [htd]; exact Ne.symm h)
      rw [if_neg hb, ih, settledAmount_cons, hbk]
      simp

/-- C10: deleting partner id `d` leaves the computed balance of every
remaining partner `q` (with `q.id ≠ d`) unchanged. -/
theorem c10_delete_frame (st : LedgerState) (d : String) (q : Partner)
    (hnd : (st.partners.map Partner.id).Nodup) (hq : q ∈ st.partners)
    (hqd : q.id ≠ d) :
    mapGet (partnerBalances (deletePartner st d).partners (deletePartner st d).sales
        (deletePartner st d).settlements) q.id
      = mapGet (partnerBalances st.partners st.sales st.settlements) q.id := by
  have hq' : q ∈ (deletePartner st d).partners :=
    List.mem_filter.mpr ⟨hq, by simpa using hqd⟩
  have hnd' : ((deletePartner st d).partners.map Partner.id).Nodup :=
    List.Nodup.sublist (List.Sublist.map Partner.id (List.filter_sublist _)) hnd
  rw [balances_formula _ _ _ q hnd' hq', balances_formula _ _ _ q hnd hq]
  have h1 : salesShare (deletePartner st d).sales q = salesShare st.sales q := by
    rw [deletePartner_sales_eq st d]
    have key : ∀ (l : List String) (x : String), l.contains x = decide (x ∈ l) := by
      intro l x
      by_cases h : x ∈ l
      · simp [h]
      · simp [h]
    apply salesShare_map_invariant
    · intro s
      rw [key _ _, key _ _]
      by_cases hm : q.id ∈ s.partnerIds
      · have hmf : q.id ∈ s.partnerIds.filter (fun pid => pid != d) :=
          List.mem_filter.mpr ⟨hm, by simpa using hqd⟩
        simp [hm, hmf]
      · have hmf : q.id ∉ s.partnerIds.filter (fun pid => pid != d) :=
          fun hf => hm (List.mem_of_mem_filter hf)
        simp [hm, hmf]
    · intro s
      rfl
  have h2 : settledAmount (deletePartner st d).settlements q.id
      = settledAmount st.settlements q.id :=
    settledAmount_filter_ne st.settlements q.id d hqd
  rw [h1, h2]

/-- Witness for C10: deleting B leaves A's balance unchanged. -/
theorem c10_delete_frame_witness :
    mapGet (partnerBalances
        (deletePartner ⟨[⟨"s1", "x", none, 0, 100, 100, 0, ["a", "b"]⟩],
          [⟨"a", "A", 60⟩, ⟨"b", "B", 40⟩], [⟨"t1", "b", 5, 0⟩]⟩ "b").partners
        (deletePartner ⟨[⟨"s1", "x", none, 0, 100, 100, 0, ["a", "b"]⟩],
          [⟨"a", "A", 60⟩, ⟨"b", "B", 40⟩], [⟨"t1", "b", 5, 0⟩]⟩ "b").sales
        (deletePartner ⟨[⟨"s1", "x", none, 0, 100, 100, 0, ["a", "b"]⟩],
          [⟨"a", "A", 60⟩, ⟨"b", "B", 40⟩], [⟨"t1", "b", 5, 0⟩]⟩ "b").settlements) "a"
      = mapGet (partnerBalances [⟨"a", "A", 60⟩, ⟨"b", "B", 40⟩]
          [⟨"s1", "x", none, 0, 100, 100, 0, ["a", "b"]⟩] [⟨"t1", "b", 5, 0⟩]) "a" :=
  c10_delete_frame ⟨[⟨"s1", "x", none, 0, 100, 100, 0, ["a", "b"]⟩],
    [⟨"a", "A", 60⟩, ⟨"b", "B", 40⟩], [⟨"t1", "b", 5, 0⟩]⟩ "b" ⟨"a", "A", 60⟩
    (by decide) (by decide) (by decide)

/-! ### Claim C9 -/

theorem handleSubmitSale_ok_inv (nm : String) (pp sp a b : JSNum)
    (h : handleSubmitSale nm pp sp = .ok a b) :
    a = pp ∧ b = sp ∧ jsIsNaN pp = false ∧ jsIsNaN sp = false
    ∧ jsLt pp (.fin 0) = false ∧ jsLt sp (.fin 0) = false
    ∧ jsLt sp pp = false := by
  unfold handleSubmitSale at h
  by_cases hn : isBlank nm = true
  · rw [if_pos hn] at h
    exact absurd h (by simp)
  · rw [if_neg hn] at h
    by_cases h2 : (jsIsNaN pp || jsIsNaN sp || jsLt pp (.fin 0)
        || jsLt sp (.fin 0)) = true
    · rw [if_pos h2] at h
      exact absurd h (by simp)
    · rw [if_neg h2] at h
      by_cases h3 : jsLt sp pp = true
      · rw [if_pos h3] at h
        exact absurd h (by simp)
      · rw [if_neg h3] at h
        injection h with hpa hsb
        simp only [Bool.or_eq_true, not_or, Bool.not_eq_true] at h2
        exact ⟨hpa.symm, hsb.symm, h2.1.1.1, h2.1.1.2, h2.1.2, h2.2,
          by simpa using h3⟩

/-- C9: sale creation is rejected whenever `soldPrice < purchasePrice` (and
whenever either price is `NaN` or negative); an accepted pair of prices
never yields a negative profit, and the created sale stores
`profit = soldPrice - purchasePrice`. -/
theorem c9_sale_profit (nm : String) (pp sp : JSNum) :
    ((jsLt sp pp = true ∨ jsIsNaN pp = true ∨ jsIsNaN sp = true
       ∨ jsLt pp (.fin 0) = true ∨ jsLt sp (.fin 0) = true) →
      ∀ a b, handleSubmitSale nm pp sp ≠ .ok a b)
    ∧ (handleSubmitSale nm pp sp = .ok pp sp →
        jsLt (jsSub sp pp) (.fin 0) = false)
    ∧ (∀ (p s : ℚ), handleSubmitSale nm pp sp = .ok (.fin p) (.fin s) →
        ∀ (sales : List Sale) (id : String) (desc : Option String) (ts : ℚ)
          (pids : List String),
          ∃ newSale, addSale sales id nm desc p s ts pids = newSale :: sales
            ∧ newSale.profit = s - p ∧ 0 ≤ newSale.profit) := by
  refine ⟨?_, ?_, ?_⟩
  · rintro hrej a b hok
    obtain ⟨_, _, h1, h2, h3, h4, h5⟩ := handleSubmitSale_ok_inv nm pp sp a b hok
    rcases hrej with h | h | h | h | h
    · rw [h5] at h
      exact Bool.false_ne_true h
    · rw [h1] at h
      exact Bool.false_ne_true h
    · rw [h2] at h
      exact Bool.false_ne_true h
    · rw [h3] at h
      exact Bool.false_ne_true h
    · rw [h4] at h
      exact Bool.false_ne_true h
  · intro hok
    obtain ⟨_, _, h1, h2, h3, h4, h5⟩ := handleSubmitSale_ok_inv nm pp sp pp sp hok
    cases pp with
    | nan => exact absurd h1 (by simp [jsIsNaN])
    | negInf => exact absurd h3 (by simp [jsLt])
    | posInf =>
      cases sp with
      | nan => exact absurd h2 (by simp [jsIsNaN])
      | negInf => exact absurd h4 (by simp [jsLt])
      | posInf => simp [jsSub, jsLt]
      | fin s => exact absurd h5 (by simp [jsLt])
    | fin p =>
      cases sp with
      | nan => exact absurd h2 (by simp [jsIsNaN])
      | negInf => exact absurd h4 (by simp [jsLt])
      | posInf => simp [jsSub, jsLt]
      | fin s =>
        simp only [jsLt, decide_eq_false_iff_not, not_lt] at h5
        simp only [jsSub, jsLt, decide_eq_false_iff_not, not_lt]
        linarith
  · intro p s hok sales id desc ts pids
    obtain ⟨ha, hb, _, _, _, _, h5⟩ := handleSubmitSale_ok_inv nm pp sp _ _ hok
    refine ⟨_, rfl, rfl, ?_⟩
    show (0 : ℚ) ≤ s - p
    rw [← ha, ← hb] at h5
    simp only [jsLt, decide_eq_false_iff_not, not_lt] at h5
    linarith

/-- Witness for C9: a rejected underwater sale and an accepted one. -/
theorem c9_sale_profit_witness :
    (∀ a b, handleSubmitSale "x" (.fin 5) (.fin 2) ≠ .ok a b)
    ∧ ∃ newSale, addSale [] "i" "x" none 2 5 0 [] = newSale :: []
        ∧ newSale.profit = 5 - 2 ∧ 0 ≤ newSale.profit :=
  ⟨(c9_sale_profit "x" (.fin 5) (.fin 2)).1
     (Or.inl (by norm_num [jsLt])),
   (c9_sale_profit "x" (.fin 2) (.fin 5)).2.2 2 5
     (by norm_num +decide [handleSubmitSale, isBlank, jsIsNaN, jsLt])
     [] "i" none 0 []⟩

end ProfitPilot
